import Mathlib

/-!
Verification development for the geoscreenshot acquisition-and-sampling
pipeline (src/cli.ts and the browser capture module). JavaScript numbers
are modelled as exact rationals; the only division-by-zero cases the code
can reach are modelled explicitly where they matter (see jsMinDiv).
Network, rendering and clock effects are injected through an ApiWorld
record of response functions, so every definition stays executable.
-/

/-- Raw image bytes, abstracted as a list of byte values. -/
abbrev Bytes := List ℕ

/-- Mirrors the Coordinates record of cli.ts: required lat and lng plus
optional per-coordinate overrides. -/
structure Coordinates where
  lat : ℚ
  lng : ℚ
  heading : Option ℚ
  pitch : Option ℚ
  fov : Option ℚ
  size : Option String
deriving DecidableEq

/-- Mirrors RequestedImageSize of cli.ts. -/
structure RequestedImageSize where
  width : ℚ
  height : ℚ
deriving DecidableEq

/-- JavaScript a || b for an optional string a: the default wins when a is
null or the empty string (both falsy). -/
def jsOrStr (a : Option String) (d : String) : String :=
  match a with
  | some s => if s = "" then d else s
  | none => d

/-- Value of a nonempty run of digit characters in the given base, with
the per-character digit value supplied; none on the empty run or on a
character outside the digit set. -/
def digitsValIn (base : ℕ) (dv : Char → Option ℕ) (cs : List Char) : Option ℕ :=
  match cs with
  | [] => none
  | _ =>
    cs.foldl
      (fun acc ch =>
        match acc, dv ch with
        | some n, some d => some (n * base + d)
        | _, _ => none)
      (some 0)

/-- Decimal digit value. -/
def decDigitVal (ch : Char) : Option ℕ :=
  if ch.isDigit then some (ch.toNat - 48) else none

/-- Binary digit value. -/
def binDigitVal (ch : Char) : Option ℕ :=
  if ch = '0' then some 0 else if ch = '1' then some 1 else none

/-- Octal digit value. -/
def octDigitVal (ch : Char) : Option ℕ :=
  if '0' ≤ ch ∧ ch ≤ '7' then some (ch.toNat - 48) else none

/-- Hexadecimal digit value, both letter cases. -/
def hexDigitVal (ch : Char) : Option ℕ :=
  if ch.isDigit then some (ch.toNat - 48)
  else if 'a' ≤ ch ∧ ch ≤ 'f' then some (ch.toNat - 87)
  else if 'A' ≤ ch ∧ ch ≤ 'F' then some (ch.toNat - 55)
  else none

/-- Powers of ten for decimal scaling, written recursively so that
literal exponents reduce step by step. -/
def tenPow : ℕ → ℚ
  | 0 => 1
  | n + 1 => 10 * tenPow n

/-- Mantissa of a JavaScript decimal literal: digits with at most one
dot and at least one digit overall, so that the forms 7, 1. and .5 are
accepted while the empty string and a lone dot are not. -/
def parseMantissa (m : String) : Option ℚ :=
  match m.splitOn "." with
  | [a] =>
    if a.isEmpty then none
    else (digitsValIn 10 decDigitVal a.toList).map (fun n => (n : ℚ))
  | [a, b] =>
    if a.isEmpty && b.isEmpty then none
    else
      let av := if a.isEmpty then some 0 else digitsValIn 10 decDigitVal a.toList
      let bv := if b.isEmpty then some 0 else digitsValIn 10 decDigitVal b.toList
      match av, bv with
      | some x, some y => some ((x : ℚ) + (y : ℚ) / tenPow b.length)
      | _, _ => none
  | _ => none

/-- Optionally signed integer exponent after the e of a decimal literal;
the boolean is the sign (true for negative). -/
def parseExp (e : String) : Option (Bool × ℕ) :=
  match e.toList with
  | '+' :: rest => (digitsValIn 10 decDigitVal rest).map (fun n => (false, n))
  | '-' :: rest => (digitsValIn 10 decDigitVal rest).map (fun n => (true, n))
  | cs => (digitsValIn 10 decDigitVal cs).map (fun n => (false, n))

/-- Unsigned JavaScript decimal literal with an optional power-of-ten
exponent introduced by e or E. -/
def parseUnsignedDec (t : String) : Option ℚ :=
  match t.split (fun ch => ch == 'e' || ch == 'E') with
  | [m] => parseMantissa m
  | [m, e] =>
    match parseMantissa m, parseExp e with
    | some mv, some (negE, n) =>
      some (if negE then mv / tenPow n else mv * tenPow n)
    | _, _ => none
  | _ => none

/-- Smallest magnitude an exact value may have and still convert to an
IEEE double infinity: under round-to-nearest-even, values whose
magnitude reaches 2 to the 1024 minus 2 to the 970 round to infinity,
and everything strictly below stays finite. Written as the explicit
integer (see jsOverflowThreshold_eq for the power form) so comparisons
against it evaluate directly. -/
def jsOverflowThreshold : ℚ := 179769313486231580793728971405303415079934132710037826936173778980444968292764750946649017977587207096330286416692887910946555547851940402630657488671505820681908902000708383676273854845817711531764475730270069855571366959622842914819860834936475292719074168444365510704342711559699508093042880177904174497792

/-- Models the JavaScript Number(string) conversion as the size parser
relies on it: whitespace is trimmed; the empty string converts to 0;
binary, octal and hexadecimal prefixed literals (which admit no sign)
convert to their integer value; an optionally signed decimal literal
with an optional exponent converts to its value; every other string,
the Infinity spellings included, converts to NaN. A conversion whose
magnitude reaches the double overflow threshold yields an infinity.
The callers test the result with Number.isFinite only, so NaN and the
infinities are both rendered as none. Finite values are idealized as
exact rationals (double rounding is not modelled; finiteness is decided
exactly). -/
def jsToNumber (s : String) : Option ℚ :=
  let t := s.trim
  if t = "" then some 0
  else
    let v : Option ℚ :=
      match t.toList with
      | '0' :: 'b' :: rest => (digitsValIn 2 binDigitVal rest).map (fun n => (n : ℚ))
      | '0' :: 'B' :: rest => (digitsValIn 2 binDigitVal rest).map (fun n => (n : ℚ))
      | '0' :: 'o' :: rest => (digitsValIn 8 octDigitVal rest).map (fun n => (n : ℚ))
      | '0' :: 'O' :: rest => (digitsValIn 8 octDigitVal rest).map (fun n => (n : ℚ))
      | '0' :: 'x' :: rest => (digitsValIn 16 hexDigitVal rest).map (fun n => (n : ℚ))
      | '0' :: 'X' :: rest => (digitsValIn 16 hexDigitVal rest).map (fun n => (n : ℚ))
      | '-' :: rest => (parseUnsignedDec (String.mk rest)).map Neg.neg
      | '+' :: rest => parseUnsignedDec (String.mk rest)
      | _ => parseUnsignedDec t
    match v with
    | some q => if q < jsOverflowThreshold ∧ -jsOverflowThreshold < q then some q else none
    | none => none

/-- Mirrors parseSize of cli.ts: a falsy input or a component that does
not convert to a finite number yields the fallback unchanged. -/
def parseSize (input : Option String) (fallback : RequestedImageSize) : RequestedImageSize :=
  match input with
  | none => fallback
  | some s =>
    if s = "" then fallback
    else
      let parts := s.splitOn "x"
      match (parts[0]?).bind jsToNumber, (parts[1]?).bind jsToNumber with
      | some w, some h => ⟨w, h⟩
      | _, _ => fallback

/-- Mirrors computeEffectiveScale of cli.ts: a finite hint collapses to 1
exactly when it equals 1 and to 2 otherwise; with no finite hint the
scale is 2 exactly when a requested dimension exceeds 640. -/
def computeEffectiveScale (requested : RequestedImageSize) (scaleArg : Option ℚ) : ℚ :=
  let candidate : ℚ :=
    match scaleArg with
    | some q => q
    | none => if 640 < requested.width ∨ 640 < requested.height then 2 else 1
  if candidate = 1 then 1 else 2

/-- Scale selection exactly as the specification words it (spec-side
definition, kept for the refinement comparison with the source). -/
def specEffectiveScale (requested : RequestedImageSize) (scaleHint : Option ℚ) : ℚ :=
  match scaleHint with
  | some q => if q = 1 then 1 else 2
  | none => if 640 < requested.width ∨ 640 < requested.height then 2 else 1

/-- The ratio Math.min(c / w, c / h) of the cap branch of
computeLogicalSize, over exact rationals. A rational zero denominator
stands for JavaScript positive zero, whose quotient is the positive
infinity that never wins the minimum in the reachable branch, so those
cases delegate to the other operand. JavaScript negative zero behaves
differently (its quotient is negative infinity and does win); that case
is outside the rational model and is captured by the JsNum model below
(see computeLogicalSizeJs). -/
def jsMinDiv (c w h : ℚ) : ℚ :=
  if w = 0 then c / h
  else if h = 0 then c / w
  else min (c / w) (c / h)

/-- Mirrors computeLogicalSize of cli.ts: floor the requested size by the
scale, rescale by the cap ratio when a dimension exceeds the cap, and
clamp each dimension to a minimum of 1. -/
def computeLogicalSize (requested : RequestedImageSize) (scale : ℚ) (cap : ℚ) :
    RequestedImageSize :=
  let logicalWidth : ℚ := ((⌊requested.width / scale⌋ : ℤ) : ℚ)
  let logicalHeight : ℚ := ((⌊requested.height / scale⌋ : ℤ) : ℚ)
  if cap < logicalWidth ∨ cap < logicalHeight then
    let ratio := jsMinDiv cap logicalWidth logicalHeight
    ⟨max 1 ((⌊logicalWidth * ratio⌋ : ℤ) : ℚ), max 1 ((⌊logicalHeight * ratio⌋ : ℤ) : ℚ)⟩
  else
    ⟨max 1 logicalWidth, max 1 logicalHeight⟩

/-- A JavaScript double, abstracted: an ordinary value idealized as an
exact rational (num 0 is positive zero), negative zero, the two
infinities, and NaN. This refines the rational model exactly where the
SizeResolver arithmetic can leave ordinary values. -/
inductive JsNum where
  | num (q : ℚ)
  | negZero
  | posInf
  | negInf
  | nan
deriving DecidableEq

/-- True for the two JavaScript zeros. -/
def JsNum.isZero : JsNum → Bool
  | num q => q == 0
  | negZero => true
  | _ => false

/-- The sign bit (true for negative); zeros carry their sign, and the
value for nan is never consulted. -/
def JsNum.signBit : JsNum → Bool
  | num q => decide (q < 0)
  | negZero => true
  | posInf => false
  | negInf => true
  | nan => false

/-- NaN test. -/
def JsNum.isNan : JsNum → Bool
  | nan => true
  | _ => false

/-- Infinity test. -/
def JsNum.isInf : JsNum → Bool
  | posInf => true
  | negInf => true
  | _ => false

/-- Numeric value of a finite JsNum (both zeros read 0); never consulted
for infinities or nan. -/
def JsNum.finVal : JsNum → ℚ
  | num q => q
  | _ => 0

/-- The zero of the given sign. -/
def mkZero (neg : Bool) : JsNum := if neg then JsNum.negZero else JsNum.num 0

/-- The infinity of the given sign. -/
def mkInf (neg : Bool) : JsNum := if neg then JsNum.negInf else JsNum.posInf

/-- JavaScript division: NaN propagates, infinity over infinity and zero
over zero are NaN, otherwise the IEEE sign rules drive the zero and
infinity results, and ordinary quotients are exact. -/
def jsDiv (a b : JsNum) : JsNum :=
  if a.isNan || b.isNan then JsNum.nan
  else if a.isInf && b.isInf then JsNum.nan
  else if a.isZero && b.isZero then JsNum.nan
  else
    let sgn := a.signBit != b.signBit
    if a.isInf then mkInf sgn
    else if b.isInf then mkZero sgn
    else if b.isZero then mkInf sgn
    else if a.isZero then mkZero sgn
    else JsNum.num (a.finVal / b.finVal)

/-- JavaScript multiplication: NaN propagates, zero times infinity is
NaN, otherwise the IEEE sign rules drive the zero and infinity results,
and ordinary products are exact. -/
def jsMul (a b : JsNum) : JsNum :=
  if a.isNan || b.isNan then JsNum.nan
  else if (a.isZero && b.isInf) || (a.isInf && b.isZero) then JsNum.nan
  else
    let sgn := a.signBit != b.signBit
    if a.isInf || b.isInf then mkInf sgn
    else if a.isZero || b.isZero then mkZero sgn
    else JsNum.num (a.finVal * b.finVal)

/-- Math.floor: identity on NaN, the infinities and negative zero, floor
of the exact value otherwise. -/
def jsFloor : JsNum → JsNum
  | JsNum.num q => JsNum.num ((⌊q⌋ : ℤ) : ℚ)
  | JsNum.negZero => JsNum.negZero
  | JsNum.posInf => JsNum.posInf
  | JsNum.negInf => JsNum.negInf
  | JsNum.nan => JsNum.nan

/-- The strict JavaScript comparison: false whenever NaN is involved,
and the two zeros compare equal. -/
def jsLt (a b : JsNum) : Bool :=
  if a.isNan || b.isNan then false
  else
    match a, b with
    | JsNum.negInf, JsNum.negInf => false
    | JsNum.negInf, _ => true
    | _, JsNum.negInf => false
    | JsNum.posInf, _ => false
    | _, JsNum.posInf => true
    | _, _ => decide (a.finVal < b.finVal)

/-- Math.min: NaN propagates; on a tie of the two zeros the negative
zero wins. -/
def jsMin (a b : JsNum) : JsNum :=
  if a.isNan || b.isNan then JsNum.nan
  else if jsLt b a then b
  else if jsLt a b then a
  else if a == JsNum.negZero || b == JsNum.negZero then JsNum.negZero
  else a

/-- Math.max: NaN propagates; on a tie of the two zeros the positive
zero wins. -/
def jsMax (a b : JsNum) : JsNum :=
  if a.isNan || b.isNan then JsNum.nan
  else if jsLt a b then b
  else if jsLt b a then a
  else if a == JsNum.negZero then b
  else a

/-- The greater-than test of the cap condition (false on NaN). -/
def jsGt (a b : JsNum) : Bool := jsLt b a

/-- computeLogicalSize of cli.ts over the JsNum double model: the same
floor, cap-ratio and clamp steps as the rational computeLogicalSize, but
with the JavaScript negative-zero, infinity and NaN behavior of every
operation preserved. -/
def computeLogicalSizeJs (width height scale cap : JsNum) : JsNum × JsNum :=
  let logicalWidth := jsFloor (jsDiv width scale)
  let logicalHeight := jsFloor (jsDiv height scale)
  if jsGt logicalWidth cap || jsGt logicalHeight cap then
    let ratio := jsMin (jsDiv cap logicalWidth) (jsDiv cap logicalHeight)
    (jsMax (JsNum.num 1) (jsFloor (jsMul logicalWidth ratio)),
      jsMax (JsNum.num 1) (jsFloor (jsMul logicalHeight ratio)))
  else
    (jsMax (JsNum.num 1) logicalWidth, jsMax (JsNum.num 1) logicalHeight)

/-- The in-place swap the Fisher-Yates loop of shuffleIndices performs;
the index reads carry non-null assertions in the source, rendered here as
a bounds-checked match that leaves the list unchanged out of range. -/
def jsSwap (l : List ℕ) (i j : ℕ) : List ℕ :=
  match l[i]?, l[j]? with
  | some a, some b => (l.set i b).set j a
  | _, _ => l

/-- Math.floor(r * n) for the random draw r, as a natural index. -/
def jIndex (r : ℚ) (n : ℕ) : ℕ := (⌊r * (n : ℚ)⌋).toNat

/-- The descending Fisher-Yates loop of shuffleIndices; rand injects the
Math.random draw used at loop position i. -/
def shuffleGo (rand : ℕ → ℚ) : ℕ → List ℕ → List ℕ
  | 0, l => l
  | i + 1, l => shuffleGo rand i (jsSwap l (i + 1) (jIndex (rand (i + 1)) (i + 2)))

/-- Mirrors shuffleIndices of cli.ts with an injected random source. -/
def shuffleIndices (n : ℕ) (rand : ℕ → ℚ) : List ℕ :=
  shuffleGo rand (n - 1) (List.range n)

/-- Mirrors buildBaseName of cli.ts. The source reads Date.now() in the
no-name branch; that ambient clock value is the explicit now argument
here. A null or empty name argument is falsy and selects the timestamp
branch. -/
def buildBaseName (pref : Option String) (coords : Coordinates) (index : ℕ) (now : ℕ) :
    String :=
  match pref with
  | some p =>
    if p = "" then toString coords.lat ++ "_" ++ toString coords.lng ++ "_" ++ toString now
    else p ++ "_" ++ toString index
  | none => toString coords.lat ++ "_" ++ toString coords.lng ++ "_" ++ toString now

/-- Mirrors resolveAngle of cli.ts: a present per-coordinate value wins
over the global fallback. -/
def resolveAngle (value : Option ℚ) (fallback : ℚ) : ℚ :=
  match value with
  | some v => v
  | none => fallback

/-- Mirrors StreetViewParams of cli.ts. -/
structure StreetViewParams where
  key : String
  radius : Option ℚ
  source : Option String
  size : Option String
  scale : Option ℚ
  heading : Option ℚ
  pitch : Option ℚ
  fov : Option ℚ
deriving DecidableEq

/-- Query-string assembly in insertion order (percent-encoding of the
separator characters is not modelled; no claim depends on it). -/
def queryString (pairs : List (String × String)) : String :=
  String.intercalate "&" (pairs.map (fun kv => kv.1 ++ "=" ++ kv.2))

/-- The lat,lng location value the URL builders interpolate. -/
def locationString (lat lng : ℚ) : String := toString lat ++ "," ++ toString lng

/-- Mirrors buildMetadataUrl of cli.ts, defaults included. -/
def buildMetadataUrl (lat lng : ℚ) (params : StreetViewParams) : String :=
  "https://maps.googleapis.com/maps/api/streetview/metadata?" ++
    queryString
      [("location", locationString lat lng), ("key", params.key),
        ("radius", toString (params.radius.getD 100)),
        ("source", jsOrStr params.source "outdoor")]

/-- Mirrors buildImageUrl of cli.ts, defaults included. -/
def buildImageUrl (lat lng : ℚ) (params : StreetViewParams) : String :=
  "https://maps.googleapis.com/maps/api/streetview?" ++
    queryString
      [("location", locationString lat lng), ("key", params.key),
        ("size", jsOrStr params.size "1280x720"),
        ("scale", toString (params.scale.getD 2)),
        ("fov", toString (params.fov.getD 90)),
        ("pitch", toString (params.pitch.getD 0)),
        ("heading", toString (params.heading.getD 0)),
        ("radius", toString (params.radius.getD 100)),
        ("source", jsOrStr params.source "outdoor")]

/-- The error taxonomy the per-attempt code can throw. -/
inductive JsError where
  | transport (status : ℕ)
  | codec
  | renderTimeout
  | generic (msg : String)
deriving DecidableEq

/-- Outcome of a piece of pipeline code: a value, a thrown exception that
the sampler loop can catch, or a process exit through exitWithError that
no catch block can intercept. -/
inductive ProcResult (α : Type) where
  | ok (value : α)
  | thrown (err : JsError)
  | exited (msg : String)
deriving DecidableEq

/-- The five sharp fit policies. -/
inductive Fit where
  | cover
  | contain
  | fill
  | inside
  | outside
deriving DecidableEq

/-- Capture backend selection (the --mode flag). -/
inductive Mode where
  | api
  | browser
deriving DecidableEq

/-- Mirrors the BrowserParams record of the browser module. -/
structure BrowserParams where
  width : ℚ
  height : ℚ
  key : Option String
  heading : Option ℚ
  pitch : Option ℚ
  fov : Option ℚ
  useEmbed : Bool
deriving DecidableEq

/-- Injected external world: HTTP fetches keyed by URL (the json fetch
already delivers the parsed status field, covering transport and JSON
failures through the error case), the sharp resize step, the browser
capture, and the Date.now clock indexed by success count. -/
structure ApiWorld where
  fetchJson : String → Except JsError (Option String)
  fetchBytes : String → Except JsError Bytes
  resizeJpeg : Bytes → ℚ → ℚ → Fit → Except JsError Bytes
  browserCapture : ℚ → ℚ → BrowserParams → Except JsError Bytes
  clock : ℕ → ℕ

/-- The exitWithError message ensureMetadataAvailable prints for a
non-OK status (the optional upstream error_message suffix is not
modelled). -/
def noStreetViewMsg (st : Option String) : String :=
  "No Street View available: " ++ st.getD "UNKNOWN"

/-- Mirrors ensureMetadataAvailable of cli.ts: fetch the metadata URL,
and on any status other than OK call exitWithError, which terminates the
whole process rather than throwing. -/
def ensureMetadataAvailable (world : ApiWorld) (lat lng : ℚ) (params : StreetViewParams) :
    ProcResult (Option String) :=
  match world.fetchJson (buildMetadataUrl lat lng params) with
  | .error e => .thrown e
  | .ok st => if st = some "OK" then .ok st else .exited (noStreetViewMsg st)

/-- The options record createImageWithApi receives from main. -/
structure ApiOptions where
  apiKey : String
  requested : RequestedImageSize
  scaleArg : Option ℚ
  heading : ℚ
  pitch : ℚ
  fov : ℚ
  radius : ℚ
  source : String
  fit : Fit
deriving DecidableEq

/-- The parameter record createImageWithApi passes to the metadata
guard: key, radius and source only. -/
def metadataParams (o : ApiOptions) : StreetViewParams :=
  StreetViewParams.mk o.apiKey (some o.radius) (some o.source) none none none none none

/-- Mirrors createImageWithApi of cli.ts. The boolean component records
whether the billed image fetch was issued. -/
def createImageWithApi (world : ApiWorld) (lat lng : ℚ) (o : ApiOptions) :
    ProcResult Bytes × Bool :=
  match ensureMetadataAvailable world lat lng (metadataParams o) with
  | .thrown e => (.thrown e, false)
  | .exited m => (.exited m, false)
  | .ok _ =>
    let effectiveScale := computeEffectiveScale o.requested o.scaleArg
    let logical := computeLogicalSize o.requested effectiveScale 640
    let normalizedSize := toString logical.width ++ "x" ++ toString logical.height
    let imageUrl := buildImageUrl lat lng
      (StreetViewParams.mk o.apiKey (some o.radius) (some o.source) (some normalizedSize)
        (some effectiveScale) (some o.heading) (some o.pitch) (some o.fov))
    match world.fetchBytes imageUrl with
    | .error e => (.thrown e, true)
    | .ok raw =>
      if 0 < o.requested.width ∧ 0 < o.requested.height then
        match world.resizeJpeg raw o.requested.width o.requested.height o.fit with
        | .error e => (.thrown e, true)
        | .ok processed => (.ok processed, true)
      else (.ok raw, true)

/-- Observable steps of the browser capture, in execution order. -/
inductive BrowserEvent where
  | goto (url : String)
  | consentProbe
  | settle (ms : ℕ)
  | waitCanvas
  | screenshot
  | closeBrowser
deriving DecidableEq

/-- JavaScript truthiness of the optional key string. -/
def keyTruthy (k : Option String) : Bool :=
  match k with
  | some s => s != ""
  | none => false

/-- Mirrors buildMapsPanoUrl of the browser module (interactive map
view). -/
def buildMapsPanoUrl (lat lng : ℚ) (p : BrowserParams) : String :=
  "https://www.google.com/maps/@?" ++
    queryString
      ([("api", "1"), ("map_action", "pano"), ("viewpoint", locationString lat lng)] ++
        (match p.heading with | some h => [("heading", toString h)] | none => []) ++
        (match p.pitch with | some x => [("pitch", toString x)] | none => []) ++
        (match p.fov with | some x => [("fov", toString x)] | none => []))

/-- Mirrors buildEmbedStreetViewUrl of the browser module (direct viewer,
no interactive dismissal needed). -/
def buildEmbedStreetViewUrl (lat lng : ℚ) (p : BrowserParams) : String :=
  "https://www.google.com/maps/embed/v1/streetview?" ++
    queryString
      ([("key", p.key.getD ""), ("location", locationString lat lng)] ++
        (match p.heading with | some h => [("heading", toString h)] | none => []) ++
        (match p.pitch with | some x => [("pitch", toString x)] | none => []) ++
        (match p.fov with | some x => [("fov", toString x)] | none => []))

/-- Control-flow trace of captureStreetViewWithBrowser in the browser
module: choose the navigation target (embed URL only when useEmbed is set
and a key is truthy), then either run the consent probe, settle delay and
canvas wait (when useEmbed is not set) or the settle delay alone, then
screenshot and unconditional teardown. -/
def captureStreetViewWithBrowser (lat lng : ℚ) (p : BrowserParams) : List BrowserEvent :=
  let url :=
    if p.useEmbed && keyTruthy p.key then buildEmbedStreetViewUrl lat lng p
    else buildMapsPanoUrl lat lng p
  [BrowserEvent.goto url] ++
    (if !p.useEmbed then
      [BrowserEvent.consentProbe, BrowserEvent.settle 1500, BrowserEvent.waitCanvas]
    else [BrowserEvent.settle 1500]) ++
    [BrowserEvent.screenshot, BrowserEvent.closeBrowser]

/-- The configuration main resolves from flags and defaults before the
sampling loop starts. -/
structure Cfg where
  apiKey : String
  size : String
  scaleArg : Option ℚ
  heading : ℚ
  pitch : ℚ
  fov : ℚ
  radius : ℚ
  source : String
  fit : Fit
  mode : Mode
  count : ℕ
  namePref : Option String

/-- The per-candidate requested size main computes: the per-coordinate
size string when truthy, else the global size flag, parsed against the
literal 1920x1080 fallback. -/
def requestedSizeFor (c : Coordinates) (globalSize : String) : RequestedImageSize :=
  parseSize (some (jsOrStr c.size globalSize)) ⟨1920, 1080⟩

/-- One acquisition attempt of the main loop: resolve the per-candidate
parameters and dispatch to the configured backend. Browser failures are
thrown exceptions; the api path may also exit the process (see
ensureMetadataAvailable). -/
def attemptFor (world : ApiWorld) (cfg : Cfg) (c : Coordinates) : ProcResult Bytes :=
  let requested := requestedSizeFor c cfg.size
  let headingValue := resolveAngle c.heading cfg.heading
  let pitchValue := resolveAngle c.pitch cfg.pitch
  let fovValue := resolveAngle c.fov cfg.fov
  match cfg.mode with
  | .browser =>
    match world.browserCapture c.lat c.lng
        (BrowserParams.mk requested.width requested.height (some cfg.apiKey)
          (some headingValue) (some pitchValue) (some fovValue) true) with
    | .ok b => .ok b
    | .error e => .thrown e
  | .api =>
    (createImageWithApi world c.lat c.lng
      (ApiOptions.mk cfg.apiKey requested cfg.scaleArg headingValue pitchValue fovValue
        cfg.radius cfg.source cfg.fit)).1

/-- Outcome of one whole run: a mid-run process exit, the end-of-run
shortfall exit, or full success. The written list holds the
(base name, bytes) pairs persisted before the run ended. -/
inductive RunResult where
  | exited (msg : String) (written : List (String × Bytes))
  | shortfall (successes target : ℕ) (written : List (String × Bytes))
  | done (written : List (String × Bytes))
deriving DecidableEq

/-- The sampling loop of main over the shuffled indices: stop at count
successes, skip a missing candidate, append a success, swallow a thrown
error and continue, and propagate a process exit; after the loop a
shortfall is reported once when successes fell short of count. -/
def mainGo (world : ApiWorld) (cfg : Cfg) (allCoords : List Coordinates) :
    List ℕ → ℕ → List (String × Bytes) → RunResult
  | [], successes, outputs =>
    if successes < cfg.count then .shortfall successes cfg.count outputs else .done outputs
  | idx :: rest, successes, outputs =>
    if cfg.count ≤ successes then .done outputs
    else
      match allCoords[idx]? with
      | none => mainGo world cfg allCoords rest successes outputs
      | some c =>
        match attemptFor world cfg c with
        | .ok image =>
          mainGo world cfg allCoords rest (successes + 1)
            (outputs ++
              [(buildBaseName cfg.namePref c (successes + 1) (world.clock successes), image)])
        | .thrown _ => mainGo world cfg allCoords rest successes outputs
        | .exited msg => .exited msg outputs

/-- The whole sampling run of main, starting from zero successes. -/
def mainRun (world : ApiWorld) (cfg : Cfg) (allCoords : List Coordinates)
    (indices : List ℕ) : RunResult :=
  mainGo world cfg allCoords indices 0 []

/-- Placeholder coordinate used only as a getD default in statements
whose hypotheses keep every lookup in range. -/
def dummyCoordinate : Coordinates := ⟨0, 0, none, none, none, none⟩

/-- Constant-response world whose metadata endpoint always reports
ZERO_RESULTS; the other collaborators are inert. -/
def zrWorld : ApiWorld :=
  ApiWorld.mk (fun _ => Except.ok (some "ZERO_RESULTS")) (fun _ => Except.ok [9])
    (fun b _ _ _ => Except.ok b) (fun _ _ _ => Except.error JsError.renderTimeout) (fun _ => 0)

/-- Concrete api options for the metadata-guard witness. -/
def o0 : ApiOptions :=
  ApiOptions.mk "KEY" ⟨1920, 1080⟩ none 0 0 90 100 "outdoor" Fit.cover

/-- The metadata URL of the coordinate 0,0 under the o0 options. -/
def metaUrlZero : String := buildMetadataUrl 0 0 (metadataParams o0)

/-- World for the failing run of claim C1: metadata reports ZERO_RESULTS
for the coordinate 0,0 and OK elsewhere. -/
def c1World : ApiWorld :=
  ApiWorld.mk
    (fun url => if url = metaUrlZero then Except.ok (some "ZERO_RESULTS") else Except.ok (some "OK"))
    (fun _ => Except.ok [9]) (fun b _ _ _ => Except.ok b)
    (fun _ _ _ => Except.error JsError.renderTimeout) (fun _ => 0)

/-- Configuration matching the o0 options, api mode, target count 1. -/
def cfgC1 : Cfg :=
  Cfg.mk "KEY" "1920x1080" none 0 0 90 100 "outdoor" Fit.cover Mode.api 1 (some "img")

/-- The candidate at 0,0. -/
def coordZero : Coordinates := ⟨0, 0, none, none, none, none⟩

/-- The candidate at 1,1. -/
def coordOne : Coordinates := ⟨1, 1, none, none, none, none⟩

/-- World in which every attempt succeeds: metadata always OK, the image
fetch returns a fixed byte, and the resize step returns its input. -/
def allOkWorld : ApiWorld :=
  ApiWorld.mk (fun _ => Except.ok (some "OK")) (fun _ => Except.ok [1])
    (fun b _ _ _ => Except.ok b) (fun _ _ _ => Except.ok [1]) (fun _ => 0)

/-- Configuration for the all-success sampler witness: api mode, target
count 2, name prefix img. -/
def cfgOk : Cfg :=
  Cfg.mk "KEY" "1920x1080" none 0 0 90 100 "outdoor" Fit.cover Mode.api 2 (some "img")

/-- A coordinate carrying a malformed per-coordinate size string. -/
def coordMalformed : Coordinates := ⟨0, 0, none, none, none, some "axb"⟩

/-- Browser parameters with useEmbed set but no key: the navigation
target falls back to the interactive map URL. -/
def noKeyParams : BrowserParams := BrowserParams.mk 800 600 none none none none true

/-- Helper for the cap branch: each logical dimension multiplied by the
cap ratio stays at or below the cap. -/
theorem mul_jsMinDiv_le (c w h : ℚ) (hc : 0 < c) (hor : c < w ∨ c < h) :
    w * jsMinDiv c w h ≤ c ∧ h * jsMinDiv c w h ≤ c := by
  unfold jsMinDiv
  split_ifs with hw hh
  · have hch : c < h := by
      rcases hor with h1 | h1
      · exact absurd (hw ▸ h1) (not_lt.mpr hc.le)
      · exact h1
    have hh0 : h ≠ 0 := ne_of_gt (lt_trans hc hch)
    constructor
    · rw [hw, zero_mul]; exact hc.le
    · rw [mul_comm, div_mul_cancel₀ _ hh0]
  · have hcw : c < w := by
      rcases hor with h1 | h1
      · exact h1
      · exact absurd (hh ▸ h1) (not_lt.mpr hc.le)
    constructor
    · rw [mul_comm, div_mul_cancel₀ _ hw]
    · rw [hh, zero_mul]; exact hc.le
  · constructor
    · rcases lt_trichotomy w 0 with hneg | hzero | hpos
      · have hch : c < h := by
          rcases hor with h1 | h1
          · exact absurd (lt_trans h1 hneg) (not_lt.mpr hc.le)
          · exact h1
        have hmin : c / w ≤ c / h :=
          le_trans (div_neg_of_pos_of_neg hc hneg).le (div_pos hc (lt_trans hc hch)).le
        rw [min_eq_left hmin, mul_comm, div_mul_cancel₀ _ hw]
      · exact absurd hzero hw
      · calc w * min (c / w) (c / h) ≤ w * (c / w) :=
              mul_le_mul_of_nonneg_left (min_le_left _ _) hpos.le
          _ = c := by rw [mul_comm, div_mul_cancel₀ _ hw]
    · rcases lt_trichotomy h 0 with hneg | hzero | hpos
      · have hcw : c < w := by
          rcases hor with h1 | h1
          · exact h1
          · exact absurd (lt_trans h1 hneg) (not_lt.mpr hc.le)
        have hmin : c / h ≤ c / w :=
          le_trans (div_neg_of_pos_of_neg hc hneg).le (div_pos hc (lt_trans hc hcw)).le
        rw [min_eq_right hmin, mul_comm, div_mul_cancel₀ _ hh]
      · exact absurd hzero hh
      · calc h * min (c / w) (c / h) ≤ h * (c / h) :=
              mul_le_mul_of_nonneg_left (min_le_right _ _) hpos.le
          _ = c := by rw [mul_comm, div_mul_cancel₀ _ hh]

/-- Helper (rational model): for every requested size and every scale in
the set 1, 2, the rational-model logical-size computation returns width
and height each between 1 and 640. Feeds the amended claim C3 through
the bridge to the JsNum double model. -/
theorem computeLogicalSize_bounds (req : RequestedImageSize) (scale : ℚ)
    (hs : scale = 1 ∨ scale = 2) :
    1 ≤ (computeLogicalSize req scale 640).width ∧
      (computeLogicalSize req scale 640).width ≤ 640 ∧
        1 ≤ (computeLogicalSize req scale 640).height ∧
          (computeLogicalSize req scale 640).height ≤ 640 := by
  have _hs := hs
  simp only [computeLogicalSize]
  split_ifs with hcond
  · obtain ⟨h1, h2⟩ := mul_jsMinDiv_le 640
      ((⌊req.width / scale⌋ : ℤ) : ℚ) ((⌊req.height / scale⌋ : ℤ) : ℚ) (by norm_num) hcond
    refine ⟨le_max_left _ _, ?_, le_max_left _ _, ?_⟩
    · exact max_le (by norm_num) (le_trans (Int.floor_le _) h1)
    · exact max_le (by norm_num) (le_trans (Int.floor_le _) h2)
  · push_neg at hcond
    refine ⟨le_max_left _ _, ?_, le_max_left _ _, ?_⟩
    · exact max_le (by norm_num) hcond.1
    · exact max_le (by norm_num) hcond.2

/-- Helper: comparison of ordinary JsNum values is the rational one. -/
theorem jsLt_num (x y : ℚ) : jsLt (JsNum.num x) (JsNum.num y) = decide (x < y) := rfl

/-- Helper: dividing an ordinary value by a positive ordinary value
gives the exact quotient (a zero numerator keeps its positive sign). -/
theorem jsDiv_num_pos (x s : ℚ) (hs : 0 < s) :
    jsDiv (JsNum.num x) (JsNum.num s) = JsNum.num (x / s) := by
  have hsne : s ≠ 0 := ne_of_gt hs
  by_cases hx : x = 0
  · subst hx
    simp [jsDiv, JsNum.isNan, JsNum.isZero, JsNum.isInf, JsNum.signBit, mkZero, hsne,
      not_lt.mpr hs.le]
  · simp [jsDiv, JsNum.isNan, JsNum.isZero, JsNum.isInf, JsNum.finVal, hx, hsne]

/-- Helper: dividing ordinary nonzero values gives the exact quotient. -/
theorem jsDiv_num_ne (x y : ℚ) (hx : x ≠ 0) (hy : y ≠ 0) :
    jsDiv (JsNum.num x) (JsNum.num y) = JsNum.num (x / y) := by
  simp [jsDiv, JsNum.isNan, JsNum.isZero, JsNum.isInf, JsNum.finVal, hx, hy]

/-- Helper: a positive ordinary value over positive zero is positive
infinity. -/
theorem jsDiv_pos_zero (x : ℚ) (hx : 0 < x) :
    jsDiv (JsNum.num x) (JsNum.num 0) = JsNum.posInf := by
  simp [jsDiv, JsNum.isNan, JsNum.isZero, JsNum.isInf, JsNum.signBit, mkInf,
    ne_of_gt hx, not_lt.mpr hx.le]

/-- Helper: the minimum of ordinary values is the rational minimum. -/
theorem jsMin_num_num (x y : ℚ) :
    jsMin (JsNum.num x) (JsNum.num y) = JsNum.num (min x y) := by
  rcases lt_trichotomy x y with hlt | heq | hgt
  · simp [jsMin, jsLt_num, JsNum.isNan, hlt, not_lt.mpr hlt.le, min_eq_left hlt.le]
  · subst heq
    simp [jsMin, jsLt_num, JsNum.isNan]
  · simp [jsMin, jsLt_num, JsNum.isNan, hgt, not_lt.mpr hgt.le, min_eq_right hgt.le]

/-- Helper: the minimum against positive infinity is the other
operand. -/
theorem jsMin_posInf_num (r : ℚ) : jsMin JsNum.posInf (JsNum.num r) = JsNum.num r := by
  simp [jsMin, jsLt, JsNum.isNan]

/-- Helper: the minimum against positive infinity on the right is the
left operand. -/
theorem jsMin_num_posInf (r : ℚ) : jsMin (JsNum.num r) JsNum.posInf = JsNum.num r := by
  simp [jsMin, jsLt, JsNum.isNan]

/-- Helper: clamping an ordinary value below by one is the rational
maximum with one. -/
theorem jsMax_one_num (x : ℚ) :
    jsMax (JsNum.num 1) (JsNum.num x) = JsNum.num (max 1 x) := by
  rcases lt_trichotomy 1 x with hlt | heq | hgt
  · simp [jsMax, jsLt_num, JsNum.isNan, hlt, not_lt.mpr hlt.le, max_eq_right hlt.le]
  · rw [← heq]
    simp [jsMax, jsLt_num, JsNum.isNan]
  · simp [jsMax, jsLt_num, JsNum.isNan, hgt, not_lt.mpr hgt.le, max_eq_left hgt.le]

/-- Helper: multiply, floor and clamp of ordinary values lands on the
rational result; the negative-zero detour of a zero times a negative
value is absorbed by the clamp. -/
theorem jsMax_floor_mul (a r : ℚ) :
    jsMax (JsNum.num 1) (jsFloor (jsMul (JsNum.num a) (JsNum.num r))) =
      JsNum.num (max 1 ((⌊a * r⌋ : ℤ) : ℚ)) := by
  by_cases ha : a = 0
  · subst ha
    by_cases hr : r < 0
    · have h1 : jsMul (JsNum.num 0) (JsNum.num r) = JsNum.negZero := by
        simp [jsMul, JsNum.isNan, JsNum.isZero, JsNum.isInf, JsNum.signBit, mkZero, hr]
      rw [h1]
      simp only [jsFloor, jsMax, jsLt, JsNum.isNan, JsNum.finVal]
      norm_num
    · have h1 : jsMul (JsNum.num 0) (JsNum.num r) = JsNum.num 0 := by
        simp [jsMul, JsNum.isNan, JsNum.isZero, JsNum.isInf, JsNum.signBit, mkZero, hr]
      rw [h1, show jsFloor (JsNum.num 0) = JsNum.num ((⌊(0 : ℚ)⌋ : ℤ) : ℚ) from rfl,
        jsMax_one_num]
      norm_num
  · by_cases hr0 : r = 0
    · subst hr0
      by_cases hneg : a < 0
      · have h1 : jsMul (JsNum.num a) (JsNum.num 0) = JsNum.negZero := by
          simp [jsMul, JsNum.isNan, JsNum.isZero, JsNum.isInf, JsNum.signBit, mkZero, ha, hneg]
        rw [h1]
        simp only [jsFloor, jsMax, jsLt, JsNum.isNan, JsNum.finVal]
        norm_num
      · have h1 : jsMul (JsNum.num a) (JsNum.num 0) = JsNum.num 0 := by
          simp [jsMul, JsNum.isNan, JsNum.isZero, JsNum.isInf, JsNum.signBit, mkZero, ha, hneg]
        rw [h1, show jsFloor (JsNum.num 0) = JsNum.num ((⌊(0 : ℚ)⌋ : ℤ) : ℚ) from rfl,
          jsMax_one_num]
        norm_num
    · have h1 : jsMul (JsNum.num a) (JsNum.num r) = JsNum.num (a * r) := by
        simp [jsMul, JsNum.isNan, JsNum.isZero, JsNum.isInf, JsNum.finVal, ha, hr0]
      rw [h1, show jsFloor (JsNum.num (a * r)) = JsNum.num ((⌊a * r⌋ : ℤ) : ℚ) from rfl]
      exact jsMax_one_num _

/-- Helper (bridge): on ordinary inputs with a positive scale the JsNum
double model of computeLogicalSize agrees with the rational model. -/
theorem computeLogicalSizeJs_num (w h scale : ℚ) (hs : 0 < scale) :
    computeLogicalSizeJs (JsNum.num w) (JsNum.num h) (JsNum.num scale) (JsNum.num 640) =
      (JsNum.num (computeLogicalSize ⟨w, h⟩ scale 640).width,
        JsNum.num (computeLogicalSize ⟨w, h⟩ scale 640).height) := by
  unfold computeLogicalSizeJs computeLogicalSize
  rw [jsDiv_num_pos w scale hs, jsDiv_num_pos h scale hs]
  dsimp only
  rw [show jsFloor (JsNum.num (w / scale)) = JsNum.num ((⌊w / scale⌋ : ℤ) : ℚ) from rfl,
    show jsFloor (JsNum.num (h / scale)) = JsNum.num ((⌊h / scale⌋ : ℤ) : ℚ) from rfl]
  set A : ℚ := ((⌊w / scale⌋ : ℤ) : ℚ) with hA
  set B : ℚ := ((⌊h / scale⌋ : ℤ) : ℚ) with hB
  by_cases hc : (640 : ℚ) < A ∨ 640 < B
  · have hgt : (jsGt (JsNum.num A) (JsNum.num 640) || jsGt (JsNum.num B) (JsNum.num 640)) =
        true := by
      simp only [jsGt, jsLt_num, Bool.or_eq_true, decide_eq_true_eq]
      exact hc
    have hratio : jsMin (jsDiv (JsNum.num 640) (JsNum.num A))
        (jsDiv (JsNum.num 640) (JsNum.num B)) = JsNum.num (jsMinDiv 640 A B) := by
      by_cases hA0 : A = 0
      · have hB640 : (640 : ℚ) < B := by
          rcases hc with hx | hx
          · rw [hA0] at hx; norm_num at hx
          · exact hx
        have hBpos : (0 : ℚ) < B := lt_trans (by norm_num) hB640
        rw [hA0, jsDiv_pos_zero 640 (by norm_num), jsDiv_num_pos 640 B hBpos,
          jsMin_posInf_num]
        simp [jsMinDiv]
      · by_cases hB0 : B = 0
        · have hA640 : (640 : ℚ) < A := by
            rcases hc with hx | hx
            · exact hx
            · rw [hB0] at hx; norm_num at hx
          have hApos : (0 : ℚ) < A := lt_trans (by norm_num) hA640
          rw [hB0, jsDiv_pos_zero 640 (by norm_num), jsDiv_num_pos 640 A hApos,
            jsMin_num_posInf]
          simp [jsMinDiv, hA0]
        · rw [jsDiv_num_ne 640 A (by norm_num) hA0, jsDiv_num_ne 640 B (by norm_num) hB0,
            jsMin_num_num]
          simp [jsMinDiv, hA0, hB0]
    rw [if_pos hgt, if_pos hc, hratio, jsMax_floor_mul, jsMax_floor_mul]
  · have hgt : ¬((jsGt (JsNum.num A) (JsNum.num 640) ||
        jsGt (JsNum.num B) (JsNum.num 640)) = true) := by
      simp only [jsGt, jsLt_num, Bool.or_eq_true, decide_eq_true_eq]
      exact hc
    rw [if_neg hgt, if_neg hc, jsMax_one_num, jsMax_one_num]

/-- Claim C3 (counterexample): the claim fails on the program at the
reachable requested size negative zero by 2000 (the string -0 converts
to the finite double negative zero) with scale 2: the cap branch
computes the ratio as the minimum of 640 over negative zero, that is
negative infinity, against 0.64, so the minimum is negative infinity,
and the returned width is then the floor of negative zero times negative
infinity clamped by Math.max, that is NaN, not a value between 1 and
640. -/
theorem computeLogicalSize_negZero_nan :
    (computeLogicalSizeJs JsNum.negZero (JsNum.num 2000) (JsNum.num 2) (JsNum.num 640)).1 =
      JsNum.nan := by
  with_unfolding_all decide

/-- Claim C3 (amended): for every requested size both of whose
components are finite doubles other than negative zero, and every scale
in the set 1, 2, the logical-size computation returns ordinary values
whose width and height are each at least 1 and at most 640 (a
negative-zero component can instead produce NaN, as the counterexample
shows). -/
theorem computeLogicalSizeJs_bounds (w h scale : ℚ) (hs : scale = 1 ∨ scale = 2) :
    ∃ w2 h2 : ℚ,
      computeLogicalSizeJs (JsNum.num w) (JsNum.num h) (JsNum.num scale) (JsNum.num 640) =
          (JsNum.num w2, JsNum.num h2) ∧
        1 ≤ w2 ∧ w2 ≤ 640 ∧ 1 ≤ h2 ∧ h2 ≤ 640 := by
  have hpos : (0 : ℚ) < scale := by rcases hs with h1 | h1 <;> rw [h1] <;> norm_num
  obtain ⟨b1, b2, b3, b4⟩ := computeLogicalSize_bounds ⟨w, h⟩ scale hs
  exact ⟨_, _, computeLogicalSizeJs_num w h scale hpos, b1, b2, b3, b4⟩

/-- Witness for the amended claim C3 at 800 by 600 with scale 1. -/
theorem computeLogicalSizeJs_bounds_witness :
    ((1 : ℚ) = 1 ∨ (1 : ℚ) = 2) ∧
      ∃ w2 h2 : ℚ,
        computeLogicalSizeJs (JsNum.num 800) (JsNum.num 600) (JsNum.num 1) (JsNum.num 640) =
            (JsNum.num w2, JsNum.num h2) ∧
          1 ≤ w2 ∧ w2 ≤ 640 ∧ 1 ≤ h2 ∧ h2 ≤ 640 :=
  ⟨Or.inl rfl, computeLogicalSizeJs_bounds 800 600 1 (Or.inl rfl)⟩

/-- Claim C4: the scale the source selects agrees everywhere with the
scale selection the specification describes: a finite hint gives 1
exactly when the hint is 1 and 2 otherwise; without a hint the scale is
2 exactly when a requested dimension exceeds 640. -/
theorem computeEffectiveScale_matches_spec (req : RequestedImageSize) (hint : Option ℚ) :
    computeEffectiveScale req hint = specEffectiveScale req hint := by
  cases hint with
  | none =>
    simp only [computeEffectiveScale, specEffectiveScale]
    split_ifs <;> simp_all
  | some q => rfl

/-- Claim C5: for requested size 3840 by 2160 with no hint the resolver
selects scale 2, the pre-cap logical size is 1920 by 1080, the cap ratio
is the minimum of 640 over 1920 and 640 over 1080, and the returned
logical size is 640 by 360. -/
theorem sizeResolver_example_3840x2160 :
    computeEffectiveScale ⟨3840, 2160⟩ none = 2 ∧
      ((⌊(3840 : ℚ) / 2⌋ : ℤ) : ℚ) = 1920 ∧
        ((⌊(2160 : ℚ) / 2⌋ : ℤ) : ℚ) = 1080 ∧
          jsMinDiv 640 1920 1080 = min ((640 : ℚ) / 1920) ((640 : ℚ) / 1080) ∧
            computeLogicalSize ⟨3840, 2160⟩ 2 640 = ⟨640, 360⟩ := by
  have hfw : ((⌊(3840 : ℚ) / 2⌋ : ℤ) : ℚ) = 1920 := by norm_num
  have hfh : ((⌊(2160 : ℚ) / 2⌋ : ℤ) : ℚ) = 1080 := by norm_num
  have hmin : min ((640 : ℚ) / 1920) ((640 : ℚ) / 1080) = 1 / 3 := by
    rw [min_def]; norm_num
  have hr : jsMinDiv 640 1920 1080 = min ((640 : ℚ) / 1920) ((640 : ℚ) / 1080) := by
    norm_num [jsMinDiv]
  refine ⟨by decide, hfw, hfh, hr, ?_⟩
  simp only [computeLogicalSize, hfw, hfh]
  rw [if_pos (by norm_num : (640 : ℚ) < 1920 ∨ (640 : ℚ) < 1080), hr, hmin]
  norm_num

/-- Helper: one Fisher-Yates swap permutes the list. -/
theorem jsSwap_perm (l : List ℕ) (i j : ℕ) : (jsSwap l i j).Perm l := by
  unfold jsSwap
  cases hi : l[i]? with
  | none => cases l[j]? <;> exact List.Perm.refl l
  | some a =>
    cases hj : l[j]? with
    | none => exact List.Perm.refl l
    | some b =>
      obtain ⟨hi', ha⟩ := List.getElem?_eq_some.mp hi
      obtain ⟨hj', hb⟩ := List.getElem?_eq_some.mp hj
      rw [List.perm_iff_count]
      intro c
      have hjlen : j < (l.set i b).length := by simpa using hj'
      have hmem : a ∈ l := ha ▸ l.getElem_mem hi'
      have hpos : 0 < l.count a := List.count_pos_iff.mpr hmem
      rw [List.count_set _ _ _ _ hjlen, List.count_set _ _ _ _ hi']
      simp only [List.getElem_set, beq_iff_eq]
      by_cases hij : i = j <;> by_cases h1 : a = c <;> by_cases h2 : b = c <;>
        subst_vars <;> simp_all

/-- Helper: the whole Fisher-Yates loop permutes its input list. -/
theorem shuffleGo_perm (rand : ℕ → ℚ) :
    ∀ (i : ℕ) (l : List ℕ), (shuffleGo rand i l).Perm l := by
  intro i
  induction i with
  | zero => intro l; exact List.Perm.refl l
  | succ k ih =>
    intro l
    exact (ih _).trans (jsSwap_perm l (k + 1) (jIndex (rand (k + 1)) (k + 2)))

/-- Claim C6: under the Math.random contract (every draw lies in the
half-open unit interval) the shuffled visiting order is a permutation of
the indices 0 to N-1, so it contains every candidate index exactly once
and no index is attempted twice in one run. -/
theorem shuffleIndices_perm (n : ℕ) (rand : ℕ → ℚ)
    (hrand : ∀ k, 0 ≤ rand k ∧ rand k < 1) :
    (shuffleIndices n rand).Perm (List.range n) := by
  have _h := hrand
  exact shuffleGo_perm rand (n - 1) (List.range n)

/-- Witness for claim C6 with four candidates and the constant draw one
third. -/
theorem shuffleIndices_perm_witness :
    (∀ k : ℕ, 0 ≤ (fun _ : ℕ => (1 : ℚ) / 3) k ∧ (fun _ : ℕ => (1 : ℚ) / 3) k < 1) ∧
      (shuffleIndices 4 (fun _ : ℕ => (1 : ℚ) / 3)).Perm (List.range 4) :=
  ⟨fun _ => by constructor <;> norm_num,
    shuffleIndices_perm 4 (fun _ : ℕ => (1 : ℚ) / 3) (fun _ => by constructor <;> norm_num)⟩

/-- Claim C2: whenever the metadata endpoint reports a status other than
OK, the api attempt fails immediately with the unavailable-imagery exit
and the billed image fetch is never issued. -/
theorem metadata_not_ok_skips_image_fetch (world : ApiWorld) (lat lng : ℚ)
    (o : ApiOptions) (st : Option String)
    (hmeta : world.fetchJson (buildMetadataUrl lat lng (metadataParams o)) = Except.ok st)
    (hst : st ≠ some "OK") :
    createImageWithApi world lat lng o = (ProcResult.exited (noStreetViewMsg st), false) := by
  unfold createImageWithApi ensureMetadataAvailable
  rw [hmeta]
  simp [hst]

/-- Witness for claim C2: a world whose metadata endpoint reports
ZERO_RESULTS; the attempt exits with the unavailable message and the
image-fetch flag stays false. -/
theorem metadata_not_ok_skips_image_fetch_witness :
    zrWorld.fetchJson (buildMetadataUrl 0 0 (metadataParams o0)) =
        Except.ok (some "ZERO_RESULTS") ∧
      (some "ZERO_RESULTS" ≠ some "OK") ∧
        createImageWithApi zrWorld 0 0 o0 =
          (ProcResult.exited (noStreetViewMsg (some "ZERO_RESULTS")), false) :=
  ⟨rfl, by decide,
    metadata_not_ok_skips_image_fetch zrWorld 0 0 o0 (some "ZERO_RESULTS") rfl (by decide)⟩

/-- Claim C1 (code bug, failing input): two candidates, target count 1,
visiting order 0 then 1, where the first candidate has no imagery
(metadata ZERO_RESULTS) and the second is fully available. The claim and
the specification require the failing candidate to be skipped and the
run to continue; instead ensureMetadataAvailable calls exitWithError,
which terminates the whole process mid-run with zero outputs, and the
second candidate is never attempted. -/
theorem run_aborts_on_unavailable_imagery :
    mainRun c1World cfgC1 [coordZero, coordOne] [0, 1] =
      RunResult.exited (noStreetViewMsg (some "ZERO_RESULTS")) [] := by
  with_unfolding_all decide

/-- Helper: when every attempt succeeds and every index is in range, the
loop starting at s successes appends exactly count minus s further
outputs, one per visited index in visiting order, numbered by success
sequence. -/
theorem mainGo_all_success (world : ApiWorld) (cfg : Cfg) (allCoords : List Coordinates)
    (f : Coordinates → Bytes)
    (hok : ∀ c, attemptFor world cfg c = ProcResult.ok (f c)) :
    ∀ (indices : List ℕ) (s : ℕ) (outs : List (String × Bytes)),
      (∀ i ∈ indices, i < allCoords.length) →
      cfg.count ≤ s + indices.length →
      mainGo world cfg allCoords indices s outs =
        RunResult.done (outs ++ (List.range (cfg.count - s)).map (fun k =>
          (buildBaseName cfg.namePref (allCoords.getD (indices.getD k 0) dummyCoordinate)
              (s + k + 1) (world.clock (s + k)),
            f (allCoords.getD (indices.getD k 0) dummyCoordinate)))) := by
  intro indices
  induction indices with
  | nil =>
    intro s outs _hv hc
    simp only [List.length_nil, Nat.add_zero] at hc
    have h0 : cfg.count - s = 0 := Nat.sub_eq_zero_of_le hc
    simp [mainGo, Nat.not_lt.mpr hc, h0]
  | cons idx rest ih =>
    intro s outs hv hc
    by_cases hs : cfg.count ≤ s
    · have h0 : cfg.count - s = 0 := Nat.sub_eq_zero_of_le hs
      simp [mainGo, hs, h0]
    · have hidx : idx < allCoords.length := hv idx (List.mem_cons_self idx rest)
      have hsome : allCoords[idx]? = some allCoords[idx] := List.getElem?_eq_getElem hidx
      have hgd : allCoords.getD idx dummyCoordinate = allCoords[idx] := by
        rw [List.getD_eq_getElem?_getD, hsome]; rfl
      have step : mainGo world cfg allCoords (idx :: rest) s outs =
          mainGo world cfg allCoords rest (s + 1)
            (outs ++
              [(buildBaseName cfg.namePref allCoords[idx] (s + 1) (world.clock s),
                f allCoords[idx])]) := by
        simp only [mainGo, if_neg hs, hsome, hok]
      rw [step,
        ih (s + 1) _ (fun i hi => hv i (List.mem_cons_of_mem idx hi))
          (by simp only [List.length_cons] at hc; omega)]
      congr 1
      have hcs : cfg.count - s = (cfg.count - (s + 1)) + 1 := by omega
      rw [hcs, List.range_succ_eq_map, List.map_cons, List.map_map, List.append_assoc]
      simp only [List.getD_cons_zero, hgd, Nat.add_zero, List.singleton_append,
        List.cons_append, List.nil_append]
      refine congrArg (outs ++ ·) (congrArg (List.cons _) (List.map_congr_left ?_))
      intro k _hk
      simp only [Function.comp_apply, Nat.succ_eq_add_one, List.getD_cons_succ]
      have e1 : s + (k + 1) + 1 = s + 1 + k + 1 := by omega
      have e2 : s + (k + 1) = s + 1 + k := by omega
      rw [e1, e2]

/-- Claim C7: with target count at most the number of visited indices,
every index in range and every attempt succeeding, the run returns done
with exactly count outputs, appended in visiting (success) order and
numbered by success sequence. -/
theorem sampler_all_success_outputs (world : ApiWorld) (cfg : Cfg)
    (allCoords : List Coordinates) (indices : List ℕ) (f : Coordinates → Bytes)
    (hvalid : ∀ i ∈ indices, i < allCoords.length)
    (hcount : cfg.count ≤ indices.length)
    (hok : ∀ c, attemptFor world cfg c = ProcResult.ok (f c)) :
    mainRun world cfg allCoords indices =
      RunResult.done ((List.range cfg.count).map (fun k =>
        (buildBaseName cfg.namePref (allCoords.getD (indices.getD k 0) dummyCoordinate)
            (k + 1) (world.clock k),
          f (allCoords.getD (indices.getD k 0) dummyCoordinate)))) := by
  have h := mainGo_all_success world cfg allCoords f hok indices 0 [] hvalid
    (by simpa using hcount)
  simpa [mainRun] using h

/-- Helper: in the all-success world every api capture returns the fixed
byte and reports the image fetch as issued. -/
theorem allOkWorld_api (lat lng : ℚ) (o : ApiOptions) :
    createImageWithApi allOkWorld lat lng o = (ProcResult.ok [1], true) := by
  unfold createImageWithApi ensureMetadataAvailable
  simp only [allOkWorld]
  split_ifs <;> rfl

/-- Helper: in the all-success world every attempt of the cfgOk run
succeeds with the fixed byte. -/
theorem allOkWorld_attempt (c : Coordinates) :
    attemptFor allOkWorld cfgOk c = ProcResult.ok [1] := by
  simp [attemptFor, cfgOk, allOkWorld_api]

/-- Witness for claim C7: two candidates, visiting order second then
first, target count two; the run returns exactly the two outputs named
img_1 and img_2 in success order. -/
theorem sampler_all_success_outputs_witness :
    mainRun allOkWorld cfgOk [coordZero, coordOne] [1, 0] =
      RunResult.done [("img_1", [1]), ("img_2", [1])] := by
  rw [sampler_all_success_outputs allOkWorld cfgOk [coordZero, coordOne] [1, 0]
      (fun _ => [1]) (by decide) (by decide) allOkWorld_attempt]
  rfl

/-- Claim C8 (counterexample): without a caller-supplied prefix the
output identity embeds the ambient Date.now reading, so two runs over
identical inputs (same coordinates, same success index) assign the same
success different identities. -/
theorem buildBaseName_not_deterministic :
    buildBaseName none dummyCoordinate 1 0 ≠ buildBaseName none dummyCoordinate 1 1 := by
  with_unfolding_all decide

/-- Claim C8 (amended): when a nonempty caller-supplied prefix is given
the identity is built from the prefix and the success index alone, hence
equal across runs whatever the clock reads; without a prefix the
identity embeds the clock and is not determined by the inputs. -/
theorem buildBaseName_prefix_deterministic (p : String) (c : Coordinates)
    (index n n' : ℕ) (hp : p ≠ "") :
    buildBaseName (some p) c index n = buildBaseName (some p) c index n' := by
  simp [buildBaseName, hp]

/-- Witness for the amended claim C8 at the prefix img. -/
theorem buildBaseName_prefix_deterministic_witness :
    ("img" ≠ "") ∧
      buildBaseName (some "img") dummyCoordinate 2 0 =
        buildBaseName (some "img") dummyCoordinate 2 1 :=
  ⟨by decide, buildBaseName_prefix_deterministic "img" dummyCoordinate 2 0 1 (by decide)⟩

/-- Claim C9 (counterexample): with useEmbed set but no key available the
navigation target is the interactive map URL, yet the consent probe is
skipped, so consent dismissal is not attempted exactly when the
interactive URL is the target. -/
theorem consent_not_iff_pano_target :
    ¬ ∀ (lat lng : ℚ) (p : BrowserParams),
        (BrowserEvent.consentProbe ∈ captureStreetViewWithBrowser lat lng p ↔
          BrowserEvent.goto (buildMapsPanoUrl lat lng p) ∈
            captureStreetViewWithBrowser lat lng p) := by
  intro h
  have h2 := (h 0 0 noKeyParams).mpr (by with_unfolding_all decide)
  exact absurd h2 (by with_unfolding_all decide)

/-- Claim C9 (amended): the consent probe runs exactly when useEmbed is
not set; when useEmbed is set only the settle delay applies, even in the
keyless case where the interactive map URL is still the navigation
target. -/
theorem consent_iff_not_useEmbed (lat lng : ℚ) (p : BrowserParams) :
    BrowserEvent.consentProbe ∈ captureStreetViewWithBrowser lat lng p ↔
      p.useEmbed = false := by
  unfold captureStreetViewWithBrowser
  cases hu : p.useEmbed <;> simp [hu]

/-- Claim C10: a size string with a component that does not convert to a
finite number makes the parser return the provided fallback unchanged,
and in the pipeline a (nonempty) malformed per-coordinate size therefore
silently resolves to the literal 1920 by 1080 fallback instead of
failing the attempt, whatever the global size flag says. -/
theorem parseSize_malformed_fallback (s : String) (fb : RequestedImageSize)
    (c : Coordinates) (g : String)
    (hmal : ((s.splitOn "x")[0]?).bind jsToNumber = none ∨
      ((s.splitOn "x")[1]?).bind jsToNumber = none)
    (hsize : c.size = some s) (hne : s ≠ "") :
    parseSize (some s) fb = fb ∧ requestedSizeFor c g = ⟨1920, 1080⟩ := by
  have key : ∀ fb' : RequestedImageSize, parseSize (some s) fb' = fb' := by
    intro fb'
    simp only [parseSize, if_neg hne]
    rcases hmal with h | h
    · rw [h]
    · rw [h]
      cases ((s.splitOn "x")[0]?).bind jsToNumber <;> rfl
  refine ⟨key fb, ?_⟩
  unfold requestedSizeFor
  rw [hsize]
  simp only [jsOrStr, if_neg hne]
  exact key _

/-- Witness for claim C10 at the malformed per-coordinate size axb with
a global size flag of 640x480. -/
theorem parseSize_malformed_fallback_witness :
    ((("axb".splitOn "x")[0]?).bind jsToNumber = none ∨
        (("axb".splitOn "x")[1]?).bind jsToNumber = none) ∧
      coordMalformed.size = some "axb" ∧ ("axb" ≠ "") ∧
        parseSize (some "axb") ⟨5, 5⟩ = ⟨5, 5⟩ ∧
          requestedSizeFor coordMalformed "640x480" = ⟨1920, 1080⟩ := by
  refine ⟨by with_unfolding_all decide, rfl, by decide, ?_, ?_⟩ <;>
  · have h := parseSize_malformed_fallback "axb" ⟨5, 5⟩ coordMalformed "640x480"
      (by with_unfolding_all decide) rfl (by decide)
    first
    | exact h.1
    | exact h.2

set_option maxRecDepth 4000 in
/-- The Number model on the forms JavaScript converts specially:
exponent and radix literals are finite numbers, a value beyond the
double range is an infinity (hence none), a signed radix literal and a
garbage component are NaN (hence none), and a finite exponent literal
inside a size string parses through rather than falling back. -/
theorem jsToNumber_forms :
    jsToNumber "1e3" = some 1000 ∧ jsToNumber "0X1A" = some 26 ∧
      jsToNumber "0b101" = some 5 ∧ jsToNumber "2e308" = none ∧
        jsToNumber "-0b101" = none ∧ jsToNumber "axb" = none ∧
          parseSize (some "1e3x500") ⟨1920, 1080⟩ = ⟨1000, 500⟩ := by
  with_unfolding_all decide

/-- The overflow threshold is 2 to the 1024 minus 2 to the 970, the
exact boundary at which round-to-nearest-even overflows a double. -/
theorem jsOverflowThreshold_eq : jsOverflowThreshold = 2 ^ 1024 - 2 ^ 970 := by
  norm_num [jsOverflowThreshold]
